import Mathlib

/-!
# Verification of the BurnEngine USB writer (`src/main.rs`)

A shallow embedding of the safety-relevant parts of the `burn` CLI:
device-catalog enumeration (`detect_usb_drives`, `detect_transport`),
the safety gate (`safety_confirm`), the write orchestrator's external
effects (`do_write`, `unmount_device`), the verification engine
(`do_verify`), and the dd progress-stream parser (`parse_dd_bytes` and
the byte-loop line acceptance test).

Strings are modelled through their character lists; the Rust string
operations used by the program (`trim`, `split_whitespace`, `contains`,
`starts_with`, `replace(',', "")`, `str::parse::<u64>`) are re-defined
here over `List Char` with ASCII whitespace, matching their behaviour on
the ASCII text the program actually handles.
-/

/-- ASCII whitespace predicate used to model Rust's `char::is_whitespace`
on the ASCII streams this program parses. -/
def isWs (c : Char) : Bool :=
  c = ' ' || c = '\t' || c = '\n' || c = '\r'

/-- Model of Rust `str::starts_with` on character lists. -/
def isPrefL : List Char → List Char → Bool
  | [], _ => true
  | _ :: _, [] => false
  | a :: as, b :: bs => a = b && isPrefL as bs

/-- Model of Rust `str::contains` (substring search) on character lists. -/
def containsSubL (needle : List Char) : List Char → Bool
  | [] => needle.isEmpty
  | b :: bs => isPrefL needle (b :: bs) || containsSubL needle bs

/-- Rust `str::contains`: does `hay` contain `needle` as a substring? -/
def strContains (hay needle : String) : Bool :=
  containsSubL needle.data hay.data

/-- Rust `str::starts_with`. -/
def strStartsWith (s pre : String) : Bool :=
  isPrefL pre.data s.data

/-- Rust `str::trim` (both ends) on character lists. -/
def trimL (l : List Char) : List Char :=
  (((l.dropWhile isWs).reverse.dropWhile isWs)).reverse

/-- Rust `str::trim`. -/
def strTrim (s : String) : String :=
  ⟨trimL s.data⟩

/-- Accumulator-based splitter behind `splitWsL`; `cur` holds the current
token reversed. -/
def splitWsAux (cur : List Char) : List Char → List (List Char)
  | [] => if cur.isEmpty then [] else [cur.reverse]
  | c :: cs =>
    if isWs c then
      if cur.isEmpty then splitWsAux [] cs else cur.reverse :: splitWsAux [] cs
    else
      splitWsAux (c :: cur) cs

/-- Model of Rust `str::split_whitespace` (no empty tokens) on character
lists. -/
def splitWsL (l : List Char) : List (List Char) :=
  splitWsAux [] l

/-- Rust `str::split_whitespace`, collected to a list of strings. -/
def splitWhitespaceStr (s : String) : List String :=
  (splitWsL s.data).map fun cs => ⟨cs⟩

/-- Digit accumulator behind `digitsToNat?`. -/
def digitsToNatAux : Nat → List Char → Option Nat
  | acc, [] => some acc
  | acc, c :: cs =>
    if c.isDigit then digitsToNatAux (acc * 10 + (c.toNat - '0'.toNat)) cs
    else none

/-- Value of a non-empty all-digit character list; `none` otherwise. -/
def digitsToNat? : List Char → Option Nat
  | [] => none
  | c :: cs => digitsToNatAux 0 (c :: cs)

/-- Model of Rust `str::parse::<u64>()`: an optional leading `+`, then one
or more ASCII digits, and the value must fit in 64 bits. -/
def rustParseU64 (s : String) : Option Nat :=
  let cs := match s.data with
    | '+' :: rest => rest
    | other => other
  match digitsToNat? cs with
  | some n => if n < 2 ^ 64 then some n else none
  | none => none

/-- Rust `str::replace(',', "")`. -/
def removeCommas (s : String) : String :=
  ⟨s.data.filter fun c => !(c = ',')⟩

/-!
## Device catalog (`detect_usb_drives`, `detect_transport`)

The sysfs tree and the `/dev` namespace are modelled as an explicit
environment: one `SysBlockEntry` per directory entry of `/sys/block`,
carrying the trimmed contents of the attribute files the program reads
(`none` when the read fails), plus the canonicalised target of the
`device` symlink and a predicate giving existence of `/dev` nodes.
-/

/-- One entry of `/sys/block` together with the attribute files
`detect_usb_drives` reads beneath it. Attribute values are already
trimmed, as `sysfs_read` trims them. -/
structure SysBlockEntry where
  name : String
  /-- Contents of `<sys_path>/removable`, if readable. -/
  removableAttr : Option String
  /-- `fs::canonicalize("<sys_path>/device")`, if it succeeds. -/
  deviceLinkResolved : Option String
  /-- Contents of `<sys_path>/size` (512-byte sectors), if readable. -/
  sizeAttr : Option String
  /-- Contents of `<sys_path>/device/model`, if readable. -/
  modelAttr : Option String
  /-- Contents of `<sys_path>/device/../product`, if readable. -/
  productAttr : Option String
  deriving Repr, DecidableEq

/-- The parts of the system the catalog consults: the `/sys/block`
listing and existence of device nodes under `/dev`. -/
structure SysEnv where
  entries : List SysBlockEntry
  devNodeExists : String → Bool

/-- `struct UsbDevice` of `src/main.rs`. -/
structure UsbDevice where
  name : String
  path : String
  size : Nat
  model : String
  removable : Bool
  transport : String
  deriving Repr, DecidableEq

/-- `detect_transport` of `src/main.rs`: pattern-match the canonicalised
`device` symlink target; `unknown` when canonicalisation fails or no
pattern matches. -/
def detect_transport (resolved : Option String) : String :=
  match resolved with
  | some real =>
    if strContains real "/usb" then "usb"
    else if strContains real "nvme" then "nvme"
    else if strContains real "mmc" then "mmc"
    else if strContains real "ata" then "ata"
    else "unknown"
  | none => "unknown"

/-- The name-pattern skip list at the top of the `detect_usb_drives`
loop: loop, ram, zram, dm-, md and sr devices are excluded outright. -/
def skipName (name : String) : Bool :=
  strStartsWith name "loop" || strStartsWith name "ram" ||
  strStartsWith name "zram" || strStartsWith name "dm-" ||
  strStartsWith name "md" || strStartsWith name "sr"

/-- The body of the `detect_usb_drives` loop for one `/sys/block` entry:
`some device` exactly when the entry survives every filter, in the
source's order (name pattern, removable, transport, `/dev` node, size,
model fallback). `u64` multiplication wraps, as in a Rust release build. -/
def processEntry (devNodeExists : String → Bool) (e : SysBlockEntry) :
    Option UsbDevice :=
  if skipName e.name then none
  else
    let removable := (e.removableAttr.map fun s => decide (s = "1")).getD false
    if !removable then none
    else
      let transport := detect_transport e.deviceLinkResolved
      if !(transport = "usb") then none
      else
        let dev_path := "/dev/" ++ e.name
        if !(devNodeExists dev_path) then none
        else
          let size_sectors := ((e.sizeAttr.bind rustParseU64).getD 0)
          let size := size_sectors * 512 % 2 ^ 64
          if size < 100000000 then none
          else
            let model :=
              ((e.modelAttr.orElse fun _ => e.productAttr).getD "USB Drive")
            some { name := e.name, path := dev_path, size := size,
                   model := model, removable := removable,
                   transport := transport }

/-- `detect_usb_drives` of `src/main.rs` over a sysfs environment. -/
def detect_usb_drives (env : SysEnv) : List UsbDevice :=
  env.entries.filterMap (processEntry env.devNodeExists)

/-!
## Safety gate (`safety_confirm`) and its call sites

`safety_confirm` performs no external invocation: it reads the image
size, prints the warning box, and at most asks two yes/no prompts. The
prompts are modelled by the answers the user would give, and the result
records which prompts were actually presented, in order.
-/

/-- The two confirmation prompts of `safety_confirm`. -/
inductive Prompt where
  | first
  | second
  deriving Repr, DecidableEq

/-- Answers the interactive user would give to each prompt. -/
structure PromptAnswers where
  first : Bool
  second : Bool
  deriving Repr, DecidableEq

/-- `safety_confirm` of `src/main.rs` (after the image stat succeeded
with `iso_bytes`): size check first, then the two prompts with
short-circuit on the first refusal. Returns the boolean result paired
with the prompts actually presented, in order. -/
def safety_confirm (iso_bytes : Nat) (device : UsbDevice)
    (a : PromptAnswers) : Bool × List Prompt :=
  if iso_bytes > device.size then (false, [])
  else if !a.first then (false, [Prompt.first])
  else (a.second, [Prompt.first, Prompt.second])

/-!
## External effects of the write/verify orchestration

Every `Command::new` invocation that touches the system is recorded as
an `Effect`; console output is kept separately.
-/

/-- External invocations performed by `do_write`, `unmount_device` and
`do_verify`. -/
inductive Effect where
  /-- `umount <mountPoint>` -/
  | unmount (mountPoint : String)
  /-- the writing `dd` subprocess, with its argument list -/
  | runCopy (args : List String)
  /-- `sync` after a successful copy -/
  | flushBuffers
  /-- `md5sum <path>` over the image file -/
  | digestFile (path : String)
  /-- the reading `dd` subprocess of the verify phase -/
  | readDevice (args : List String)
  /-- `md5sum` over the bytes piped from the reading `dd` -/
  | digestPipe
  deriving Repr, DecidableEq

/-- `unmount_device` of `src/main.rs`: for every `/proc/mounts` line
with at least two whitespace-separated fields whose first field starts
with the device path, invoke `umount` on the second field. (The
`/sys/block` loop at the top of the function does nothing and is
omitted.) -/
def unmount_device (device : UsbDevice) (mounts : List String) :
    List Effect :=
  mounts.filterMap fun line =>
    match splitWhitespaceStr line with
    | mount_dev :: mount_point :: _ =>
      if strStartsWith mount_dev device.path then
        some (Effect.unmount mount_point)
      else none
    | _ => none

/-- Argument list of the writing `dd` invocation in `do_write`
(`oflag=sync` is commented out in the source). -/
def ddWriteArgs (input : String) (devPath : String) : List String :=
  ["if=" ++ input, "of=" ++ devPath, "bs=4M", "status=progress"]

/-- The command line `do_write` prints in dry-run mode (and, with the
`Running:` prefix removed, in verbose mode): note the trailing
`oflag=sync`. -/
def dry_run_command_line (input : String) (devPath : String) : String :=
  "dd if=" ++ input ++ " of=" ++ devPath ++ " bs=4M status=progress oflag=sync"

/-- Join a list of strings with single spaces. -/
def joinSpace : List String → String
  | [] => ""
  | [s] => s
  | s :: rest => s ++ " " ++ joinSpace rest

/-- The command line actually executed by a non-dry run: program name
followed by its arguments. -/
def actual_command_line (input : String) (devPath : String) : String :=
  joinSpace ("dd" :: ddWriteArgs input devPath)

/-- `(iso_bytes + 511) / 512` — the sector count of the verify read in
`do_verify`. -/
def verify_sectors (iso_bytes : Nat) : Nat :=
  (iso_bytes + 511) / 512

/-- Argument list of the reading `dd` invocation in `do_verify`. -/
def ddReadArgs (devPath : String) (iso_bytes : Nat) : List String :=
  ["if=" ++ devPath, "bs=512",
   "count=" ++ toString (verify_sectors iso_bytes), "status=progress"]

/-- Number of device bytes the verify read covers: `count` full blocks
of `bs=512` bytes. -/
def verify_bytes_read (iso_bytes : Nat) : Nat :=
  verify_sectors iso_bytes * 512

/-- External effects of `do_verify`: digest the image file, read the
bounded device range, digest the piped bytes. -/
def verify_effects (input : String) (device : UsbDevice)
    (iso_bytes : Nat) : List Effect :=
  [Effect.digestFile input,
   Effect.readDevice (ddReadArgs device.path iso_bytes),
   Effect.digestPipe]

/-- External effects of `do_write` of `src/main.rs`, in program order:
unmount always runs first; the dry-run early return happens after it;
otherwise the copy runs, and only a successful copy is followed by
`sync` and (when requested) the verify phase. -/
def do_write_effects (input : String) (device : UsbDevice)
    (verify dry_run : Bool) (iso_bytes : Nat) (mounts : List String)
    (copyExitOk : Bool) : List Effect :=
  unmount_device device mounts ++
  (if dry_run then []
   else
     Effect.runCopy (ddWriteArgs input device.path) ::
       (if copyExitOk then
          Effect.flushBuffers ::
            (if verify then verify_effects input device iso_bytes else [])
        else []))

/-- The descriptive `dd` command lines `do_write` prints: exactly one in
dry-run mode, one (prefixed `Running:`) in verbose non-dry mode, none
otherwise. -/
def do_write_command_lines (input : String) (device : UsbDevice)
    (dry_run verbose : Bool) : List String :=
  if dry_run then [dry_run_command_line input device.path]
  else if verbose then
    ["Running: " ++ dry_run_command_line input device.path]
  else []

/-!
## Progress-stream parser
-/

/-- `parse_dd_bytes` of `src/main.rs`: first whitespace-delimited token,
commas removed, parsed as `u64`. -/
def parse_dd_bytes (line : String) : Option Nat :=
  (splitWhitespaceStr line).head?.bind fun s => rustParseU64 (removeCommas s)

/-- The per-line acceptance test of the stderr-reader threads in
`do_write` and `do_verify`: trim the line, require both `bytes` and
`copied` substrings, then `parse_dd_bytes`. `some b` is the byte offset
update produced for the line, `none` means the line is discarded. -/
def progress_update (line : String) : Option Nat :=
  let trimmed := strTrim line
  if strContains trimmed "bytes" && strContains trimmed "copied" then
    parse_dd_bytes trimmed
  else none

/-- Position fed to the progress bar by the write-phase reader thread:
the parsed value, unclamped (`pb2.set_position(b)`). -/
def write_progress_position (line : String) : Option Nat :=
  progress_update line

/-- Position fed to the progress bar by the verify-phase reader thread:
the parsed value clamped to the image size
(`pb2.set_position(b.min(iso_bytes))`). -/
def verify_progress_position (iso_bytes : Nat) (line : String) :
    Option Nat :=
  (progress_update line).map fun b => min b iso_bytes

/-!
## Verification outcome and the `write` command flow
-/

/-- The failure cases of the orchestration relevant here, kept as
distinct constructors as they are distinct error values in the source. -/
inductive OpFailure where
  /-- the writing `dd` exited non-zero with this code -/
  | copyFailed (exitCode : Int)
  /-- the two MD5 digests differ -/
  | verifyMismatch
  deriving Repr, DecidableEq

/-- The digest comparison at the end of `do_verify`: plain (hence
case-sensitive) string equality of the two MD5 tokens. -/
def verify_result (iso_md5 usb_md5 : String) : Except OpFailure Unit :=
  if iso_md5 = usb_md5 then Except.ok () else Except.error OpFailure.verifyMismatch

/-- The gate in `main` and in the wizard: `do_write` runs only when
`safety_confirm` returned `true`; otherwise no external effect happens. -/
def write_command_flow (input : String) (iso_bytes : Nat)
    (device : UsbDevice) (a : PromptAnswers) (verify dry_run : Bool)
    (mounts : List String) (copyExitOk : Bool) : List Effect :=
  if (safety_confirm iso_bytes device a).1 then
    do_write_effects input device verify dry_run iso_bytes mounts copyExitOk
  else []

/-- Device-path resolution of `burn write --device <d>` in `main`: the
first enumerated device whose path equals the request. -/
def resolve_write_device (catalog : List UsbDevice) (requested : String) :
    Option UsbDevice :=
  catalog.find? fun dev => dev.path == requested

/-- The `Commands::Write` arm of `main` with an explicitly specified
device path: resolution failure is an error before any confirmation or
effect; otherwise the gated write flow runs against the resolved
device. -/
def write_command_explicit_device (catalog : List UsbDevice)
    (requested : String) (input : String) (iso_bytes : Nat)
    (a : PromptAnswers) (verify dry_run : Bool) (mounts : List String)
    (copyExitOk : Bool) : Except String (List Effect) :=
  match resolve_write_device catalog requested with
  | some dev =>
    Except.ok (write_command_flow input iso_bytes dev a verify dry_run
      mounts copyExitOk)
  | none =>
    Except.error (requested ++ " is not a detected USB drive.")

/-!
## Concrete fixtures used by the witnesses
-/

/-- A one-entry sysfs environment: a removable USB stick `sdb` behind a
USB transport path, with an existing `/dev/sdb` node. -/
def sampleEnv : SysEnv where
  entries := [{ name := "sdb", removableAttr := some "1",
                deviceLinkResolved := some
                  "/sys/devices/pci0000:00/0000:00:14.0/usb2/2-1/2-1:1.0/host4/target4:0:0/4:0:0:0",
                sizeAttr := some "31116288", modelAttr := some "Cruzer Blade",
                productAttr := none }]
  devNodeExists := fun p => p == "/dev/sdb"

/-- The device the catalog yields on `sampleEnv`
(31116288 sectors × 512 bytes). -/
def sampleDev : UsbDevice where
  name := "sdb"
  path := "/dev/sdb"
  size := 15931539456
  model := "Cruzer Blade"
  removable := true
  transport := "usb"

/-- An 8 GB USB device fixture for the safety-gate and write-flow
witnesses. -/
def smallDev : UsbDevice where
  name := "sdc"
  path := "/dev/sdc"
  size := 8000000000
  model := "Test USB"
  removable := true
  transport := "usb"

/-!
## Lemmas about the string model

The progress-parser claim talks about the raw line while the code tests
the trimmed line; these lemmas show trimming changes neither substring
containment (for needles without whitespace) nor whitespace splitting.
-/

theorem isPrefL_iff (n : List Char) : ∀ h : List Char,
    isPrefL n h = true ↔ ∃ t, h = n ++ t := by
  induction n with
  | nil => intro h; simp [isPrefL]
  | cons a as ih =>
    intro h
    cases h with
    | nil => simp [isPrefL]
    | cons b bs =>
      simp only [isPrefL, Bool.and_eq_true, decide_eq_true_eq, ih,
        List.cons_append]
      constructor
      · rintro ⟨rfl, t, rfl⟩
        exact ⟨t, rfl⟩
      · rintro ⟨t, ht⟩
        injection ht with h1 h2
        exact ⟨h1.symm, t, h2⟩

theorem containsSubL_iff (n : List Char) : ∀ h : List Char,
    containsSubL n h = true ↔ ∃ s t, h = s ++ n ++ t := by
  intro h
  induction h with
  | nil =>
    simp only [containsSubL, List.isEmpty_iff]
    constructor
    · rintro rfl
      exact ⟨[], [], rfl⟩
    · rintro ⟨s, t, ht⟩
      rcases List.append_eq_nil.mp ht.symm with ⟨h1, -⟩
      exact (List.append_eq_nil.mp h1).2
  | cons b bs ih =>
    simp only [containsSubL, Bool.or_eq_true, isPrefL_iff, ih]
    constructor
    · rintro (⟨t, ht⟩ | ⟨s, t, rfl⟩)
      · exact ⟨[], t, by simpa using ht⟩
      · exact ⟨b :: s, t, rfl⟩
    · rintro ⟨s, t, ht⟩
      cases s with
      | nil =>
        left
        exact ⟨t, by simpa using ht⟩
      | cons s0 s' =>
        right
        rw [List.cons_append, List.cons_append] at ht
        injection ht with h1 h2
        exact ⟨s', t, h2⟩

theorem containsSubL_dropWhile (c0 : Char) (n : List Char)
    (hc : isWs c0 = false) (l : List Char) :
    containsSubL (c0 :: n) (l.dropWhile isWs) = containsSubL (c0 :: n) l := by
  induction l with
  | nil => rfl
  | cons b bs ih =>
    by_cases hb : isWs b = true
    · have hc0b : ¬ c0 = b := fun he => by rw [he, hb] at hc; cases hc
      rw [List.dropWhile_cons, if_pos hb, ih]
      simp [containsSubL, isPrefL, hc0b]
    · rw [List.dropWhile_cons, if_neg hb]

theorem containsSubL_reverse (n h : List Char) :
    containsSubL n h.reverse = true ↔ containsSubL n.reverse h = true := by
  rw [containsSubL_iff, containsSubL_iff]
  constructor
  · rintro ⟨s, t, ht⟩
    refine ⟨t.reverse, s.reverse, ?_⟩
    have h2 := congrArg List.reverse ht
    rw [List.reverse_reverse] at h2
    rw [h2]
    simp [List.reverse_append, List.append_assoc]
  · rintro ⟨s, t, ht⟩
    refine ⟨t.reverse, s.reverse, ?_⟩
    rw [ht]
    simp [List.reverse_append, List.append_assoc]

theorem containsSubL_trimL (n : List Char) (hne : n ≠ [])
    (hall : ∀ c ∈ n, isWs c = false) (l : List Char) :
    containsSubL n (trimL l) = true ↔ containsSubL n l = true := by
  obtain ⟨c0, n', rfl⟩ := List.exists_cons_of_ne_nil hne
  have hc0 : isWs c0 = false := hall c0 (List.mem_cons_self c0 n')
  cases hrev : (c0 :: n').reverse with
  | nil => exact absurd hrev (by simp)
  | cons d0 m =>
    have hd0 : isWs d0 = false := by
      apply hall
      rw [← List.mem_reverse, hrev]
      exact List.mem_cons_self _ _
    calc containsSubL (c0 :: n') (trimL l) = true
        ↔ containsSubL (c0 :: n').reverse
            ((l.dropWhile isWs).reverse.dropWhile isWs) = true := by
          unfold trimL
          exact containsSubL_reverse _ _
      _ ↔ containsSubL (c0 :: n').reverse (l.dropWhile isWs).reverse = true := by
          rw [hrev, containsSubL_dropWhile d0 m hd0]
      _ ↔ containsSubL (c0 :: n').reverse.reverse (l.dropWhile isWs) = true :=
          containsSubL_reverse _ _
      _ ↔ containsSubL (c0 :: n') l = true := by
          rw [List.reverse_reverse, containsSubL_dropWhile c0 n' hc0]

theorem strContains_strTrim (line needle : String) (hne : needle.data ≠ [])
    (hall : ∀ c ∈ needle.data, isWs c = false) :
    (strContains (strTrim line) needle = true) ↔
      (strContains line needle = true) := by
  have hdata : (strTrim line).data = trimL line.data := rfl
  unfold strContains
  rw [hdata]
  exact containsSubL_trimL needle.data hne hall line.data

theorem splitWsAux_allWs (suffix : List Char)
    (hws : ∀ c ∈ suffix, isWs c = true) :
    ∀ cur, splitWsAux cur suffix = splitWsAux cur [] := by
  induction suffix with
  | nil => intro cur; rfl
  | cons c cs ih =>
    intro cur
    have hc : isWs c = true := hws c (List.mem_cons_self _ _)
    have ih' : ∀ cur, splitWsAux cur cs = splitWsAux cur [] :=
      ih fun x hx => hws x (List.mem_cons_of_mem _ hx)
    by_cases hcur : cur.isEmpty = true
    · simp [splitWsAux, hc, hcur, ih']
    · simp [splitWsAux, hc, hcur, ih']

theorem splitWsAux_append_allWs (xs suffix : List Char)
    (hws : ∀ c ∈ suffix, isWs c = true) :
    ∀ cur, splitWsAux cur (xs ++ suffix) = splitWsAux cur xs := by
  induction xs with
  | nil =>
    intro cur
    rw [List.nil_append]
    exact splitWsAux_allWs suffix hws cur
  | cons x xr ih =>
    intro cur
    rw [List.cons_append]
    by_cases hx : isWs x = true
    · by_cases hcur : cur.isEmpty = true <;> simp [splitWsAux, hx, hcur, ih]
    · simp [splitWsAux, hx, ih]

theorem splitWsAux_dropWhile (l : List Char) :
    splitWsAux [] (l.dropWhile isWs) = splitWsAux [] l := by
  induction l with
  | nil => rfl
  | cons b bs ih =>
    by_cases hb : isWs b = true
    · rw [List.dropWhile_cons, if_pos hb, ih]
      simp [splitWsAux, hb]
    · rw [List.dropWhile_cons, if_neg hb]

theorem splitWsL_trimL (l : List Char) : splitWsL (trimL l) = splitWsL l := by
  unfold splitWsL trimL
  have hdecomp : l.dropWhile isWs =
      ((l.dropWhile isWs).reverse.dropWhile isWs).reverse ++
        ((l.dropWhile isWs).reverse.takeWhile isWs).reverse := by
    have h1 := List.takeWhile_append_dropWhile isWs (l.dropWhile isWs).reverse
    have h2 := congrArg List.reverse h1
    rw [List.reverse_append, List.reverse_reverse] at h2
    exact h2.symm
  have hws : ∀ c ∈ ((l.dropWhile isWs).reverse.takeWhile isWs).reverse,
      isWs c = true := by
    intro c hc
    rw [List.mem_reverse] at hc
    exact List.mem_takeWhile_imp hc
  calc splitWsAux [] (((l.dropWhile isWs).reverse.dropWhile isWs).reverse)
      = splitWsAux []
          (((l.dropWhile isWs).reverse.dropWhile isWs).reverse ++
            ((l.dropWhile isWs).reverse.takeWhile isWs).reverse) :=
        (splitWsAux_append_allWs _ _ hws []).symm
    _ = splitWsAux [] (l.dropWhile isWs) := by rw [← hdecomp]
    _ = splitWsAux [] l := splitWsAux_dropWhile l

theorem parse_dd_bytes_strTrim (line : String) :
    parse_dd_bytes (strTrim line) = parse_dd_bytes line := by
  have hdata : (strTrim line).data = trimL line.data := rfl
  unfold parse_dd_bytes splitWhitespaceStr
  rw [hdata, splitWsL_trimL]

/-!
## Lemmas about the device catalog and the unmount phase
-/

theorem processEntry_some {dn : String → Bool} {e : SysBlockEntry}
    {d : UsbDevice} (h : processEntry dn e = some d) :
    d.removable = true ∧ d.transport = "usb" ∧ 100000000 ≤ d.size ∧
      dn d.path = true := by
  simp only [processEntry] at h
  split at h
  · exact Option.noConfusion h
  split at h
  · exact Option.noConfusion h
  split at h
  · exact Option.noConfusion h
  split at h
  · exact Option.noConfusion h
  split at h
  · exact Option.noConfusion h
  rename_i hskip hrem htrans hnode hsize
  injection h with h
  subst h
  simp only [Bool.not_eq_true] at hrem htrans hnode
  refine ⟨?_, ?_, ?_, ?_⟩
  · simpa using hrem
  · simpa using htrans
  · simpa [Nat.not_lt] using hsize
  · simpa using hnode

theorem unmount_device_only_unmounts (device : UsbDevice)
    (mounts : List String) :
    ∀ e ∈ unmount_device device mounts, ∃ mp, e = Effect.unmount mp := by
  intro e he
  rcases List.mem_filterMap.mp he with ⟨line, -, hline⟩
  split at hline
  · split at hline
    · exact ⟨_, (Option.some.inj hline).symm⟩
    · exact Option.noConfusion hline
  · exact Option.noConfusion hline

/-!
## Claim theorems
-/

/-- **C1** (invariants): every device returned by `detect_usb_drives` has
`removable = true`, transport exactly `"usb"`, size at least 100,000,000
bytes, and an existing device node at its path; no device failing any of
these conditions is ever included in the output. -/
theorem C1_device_catalog_invariant (env : SysEnv) (d : UsbDevice)
    (hd : d ∈ detect_usb_drives env) :
    d.removable = true ∧ d.transport = "usb" ∧ 100000000 ≤ d.size ∧
      env.devNodeExists d.path = true := by
  rcases List.mem_filterMap.mp hd with ⟨e, -, he⟩
  exact processEntry_some he

/-- Witness for C1: on the concrete environment `sampleEnv` the catalog
contains `sampleDev`, and the invariant holds for it. -/
theorem C1_witness :
    sampleDev ∈ detect_usb_drives sampleEnv ∧
      (sampleDev.removable = true ∧ sampleDev.transport = "usb" ∧
        100000000 ≤ sampleDev.size ∧
        sampleEnv.devNodeExists sampleDev.path = true) :=
  ⟨by decide, C1_device_catalog_invariant sampleEnv sampleDev (by decide)⟩

/-- **C2** (counterexample): in dry-run mode `do_write` still unmounts —
`unmount_device` runs before the dry-run early return — so with
`/dev/sdc1` mounted at `/mnt/usb` the dry-run effect list contains an
unmount invocation, contradicting "no unmount of any mount point". -/
theorem C2_counterexample :
    Effect.unmount "/mnt/usb" ∈
      do_write_effects "ubuntu.iso" smallDev false true 3000000000
        ["/dev/sdc1 /mnt/usb vfat rw 0 0"] true := by decide

/-- **C2** (amended): with the dry-run flag set, `do_write` performs no
copy subprocess, no buffer flush and no digest invocation — its external
effects are exactly the unmount invocations of the unmount phase, which
still runs — and it emits exactly one descriptive command line before
returning success. -/
theorem C2_dry_run_effects (input : String) (device : UsbDevice)
    (verify : Bool) (iso_bytes : Nat) (mounts : List String)
    (copyExitOk verbose : Bool) :
    do_write_effects input device verify true iso_bytes mounts copyExitOk
        = unmount_device device mounts ∧
    (∀ e ∈ do_write_effects input device verify true iso_bytes mounts
        copyExitOk, ∃ mp, e = Effect.unmount mp) ∧
    do_write_command_lines input device true verbose
        = [dry_run_command_line input device.path] := by
  refine ⟨by simp [do_write_effects], ?_, rfl⟩
  intro e he
  apply unmount_device_only_unmounts device mounts
  simpa [do_write_effects] using he

/-- **C3** (error handling): when the image is larger than the device,
`safety_confirm` reports the mismatch and returns `false` having presented
no prompt, and the gated write flow performs no effect at all. -/
theorem C3_size_mismatch_refuses (input : String) (iso_bytes : Nat)
    (device : UsbDevice) (a : PromptAnswers) (verify dry_run : Bool)
    (mounts : List String) (copyExitOk : Bool)
    (h : iso_bytes > device.size) :
    safety_confirm iso_bytes device a = (false, []) ∧
      write_command_flow input iso_bytes device a verify dry_run mounts
        copyExitOk = [] := by
  constructor
  · simp [safety_confirm, h]
  · simp [write_command_flow, safety_confirm, h]

/-- Witness for C3: a 9 GB image against the 8 GB `smallDev`. -/
theorem C3_witness :
    safety_confirm 9000000000 smallDev ⟨true, true⟩ = (false, []) ∧
      write_command_flow "ubuntu.iso" 9000000000 smallDev ⟨true, true⟩
        true false [] true = [] :=
  C3_size_mismatch_refuses "ubuntu.iso" 9000000000 smallDev ⟨true, true⟩
    true false [] true (by decide)

/-- **C4** (functional correctness): when the image fits, `safety_confirm`
returns `true` iff both prompts are answered affirmatively; a declined
first prompt means the second prompt is never presented and the gated
write flow performs no effect. -/
theorem C4_double_confirmation (input : String) (iso_bytes : Nat)
    (device : UsbDevice) (a : PromptAnswers) (verify dry_run : Bool)
    (mounts : List String) (copyExitOk : Bool)
    (hfit : iso_bytes ≤ device.size) :
    ((safety_confirm iso_bytes device a).1 = true ↔
      (a.first = true ∧ a.second = true)) ∧
    (a.first = false →
      (safety_confirm iso_bytes device a).2 = [Prompt.first] ∧
      write_command_flow input iso_bytes device a verify dry_run mounts
        copyExitOk = []) := by
  have hnot : ¬ iso_bytes > device.size := Nat.not_lt.mpr hfit
  constructor
  · cases hf : a.first <;> cases hs : a.second <;>
      simp [safety_confirm, hnot, hf, hs]
  · intro hf
    constructor
    · simp [safety_confirm, hnot, hf]
    · simp [write_command_flow, safety_confirm, hnot, hf]

/-- Witness for C4: a fitting image with the first prompt declined. -/
theorem C4_witness :
    (safety_confirm 5000000000 smallDev ⟨false, true⟩).2 = [Prompt.first] ∧
      write_command_flow "ubuntu.iso" 5000000000 smallDev ⟨false, true⟩
        true false [] true = [] :=
  (C4_double_confirmation "ubuntu.iso" 5000000000 smallDev ⟨false, true⟩
    true false [] true (by decide)).2 (by decide)

/-- **C5** (counterexample): for a 1-byte image the verify read covers
512 device bytes, not exactly 1, so the device-side digest is not
computed over exactly N bytes for every N. -/
theorem C5_counterexample :
    verify_bytes_read 1 = 512 ∧ verify_bytes_read 1 ≠ 1 := by decide

/-- **C5** (amended): the verify read is limited to
`(N + 511) / 512` sectors of 512 bytes, so it covers at least N and
fewer than N + 512 device bytes, and exactly N precisely when 512
divides N (as it does for CD-sector-aligned ISO images). -/
theorem C5_verify_read_window (N : Nat) (devPath : String) :
    ddReadArgs devPath N =
      ["if=" ++ devPath, "bs=512",
       "count=" ++ toString ((N + 511) / 512), "status=progress"] ∧
    N ≤ verify_bytes_read N ∧ verify_bytes_read N < N + 512 ∧
    (verify_bytes_read N = N ↔ N % 512 = 0) := by
  refine ⟨rfl, ?_, ?_, ?_⟩ <;>
    · unfold verify_bytes_read verify_sectors
      omega

/-- **C6** (counterexample): the command line printed in dry-run mode is
not the command line a non-dry run executes — the printout carries a
trailing `oflag=sync` that the real `dd` invocation does not receive. -/
theorem C6_counterexample :
    dry_run_command_line "ubuntu.iso" "/dev/sdb" ≠
      actual_command_line "ubuntu.iso" "/dev/sdb" := by decide

/-- **C6** (amended): the dry-run printout is exactly the executed
command line with ` oflag=sync` appended; the executed command line has
the form `dd if=<image> of=<device> bs=4M status=progress`. -/
theorem C6_dry_run_line_appends_oflag (input devPath : String) :
    dry_run_command_line input devPath =
      actual_command_line input devPath ++ " oflag=sync" := by
  apply String.ext
  simp only [dry_run_command_line, actual_command_line, ddWriteArgs,
    joinSpace, String.data_append, List.append_assoc]
  simp [List.cons_append, List.append_assoc]

/-- **C7** (functional correctness): a progress-stream line yields an
update exactly when it contains both `bytes` and `copied` and its first
whitespace-delimited token, commas removed, parses as an integer, the
update being that integer; the three reference lines behave as claimed. -/
theorem C7_progress_line_parsing :
    (∀ (line : String) (v : Nat),
      progress_update line = some v ↔
        (strContains line "bytes" = true ∧ strContains line "copied" = true ∧
          parse_dd_bytes line = some v)) ∧
    progress_update "104857600 bytes (105 MB, 100 MiB) copied, 1.0 s, 100 MB/s"
        = some 104857600 ∧
    progress_update "1,234,567 bytes copied" = some 1234567 ∧
    progress_update "dd: some diagnostic" = none := by
  refine ⟨?_, by decide, by decide, by decide⟩
  intro line v
  have hb := strContains_strTrim line "bytes" (by decide) (by decide)
  have hc := strContains_strTrim line "copied" (by decide) (by decide)
  have hp := parse_dd_bytes_strTrim line
  cases h1 : strContains (strTrim line) "bytes" with
  | false =>
    have hnb : ¬ strContains line "bytes" = true := fun hx => by
      have h2 := hb.mpr hx
      rw [h1] at h2
      exact Bool.noConfusion h2
    simp [progress_update, h1, hnb]
  | true =>
    cases h2 : strContains (strTrim line) "copied" with
    | false =>
      have hnc : ¬ strContains line "copied" = true := fun hx => by
        have h3 := hc.mpr hx
        rw [h2] at h3
        exact Bool.noConfusion h3
      simp [progress_update, h1, h2, hnc]
    | true =>
      simp [progress_update, h1, h2, hp, hb.mp h1, hc.mp h2]

/-- **C8** (error handling): verification succeeds exactly when the two
digests are equal as (case-sensitive) strings; otherwise it fails with
the mismatch error, a value distinct from every write failure, and in
`do_write` the successful-write effects (copy, then buffer flush) precede
the verify phase regardless of the digest outcome. -/
theorem C8_digest_comparison (iso_md5 usb_md5 : String) :
    (verify_result iso_md5 usb_md5 = Except.ok () ↔ iso_md5 = usb_md5) ∧
    (iso_md5 ≠ usb_md5 →
      verify_result iso_md5 usb_md5 =
        Except.error OpFailure.verifyMismatch) ∧
    (∀ code : Int,
      (OpFailure.verifyMismatch : OpFailure) ≠ OpFailure.copyFailed code) ∧
    (∀ (input : String) (device : UsbDevice) (iso_bytes : Nat)
        (mounts : List String),
      do_write_effects input device true false iso_bytes mounts true =
        unmount_device device mounts ++
          [Effect.runCopy (ddWriteArgs input device.path),
           Effect.flushBuffers] ++ verify_effects input device iso_bytes) := by
  refine ⟨?_, ?_, fun code => by simp, fun input device iso_bytes mounts => ?_⟩
  · unfold verify_result
    split
    · simp_all
    · simp_all
  · intro h
    simp [verify_result, h]
  · simp [do_write_effects]

/-- Witness for C8: two digests differing only in letter case are
unequal, so verification fails with the mismatch error. -/
theorem C8_witness :
    verify_result "d41d8cd98f00b204e9800998ecf8427e"
        "D41D8CD98F00B204E9800998ECF8427E" =
      Except.error OpFailure.verifyMismatch :=
  (C8_digest_comparison "d41d8cd98f00b204e9800998ecf8427e"
    "D41D8CD98F00B204E9800998ECF8427E").2.1 (by decide)

/-- **C9** (counterexample): in the write phase the parsed offset is fed
to the progress state unclamped, so for an image of 100 bytes the line
`1000000 bytes copied` produces an update of 1,000,000, exceeding the
operation's total size. -/
theorem C9_counterexample :
    write_progress_position "1000000 bytes copied" = some 1000000 ∧
      ¬ (1000000 : Nat) ≤ 100 := by decide

/-- **C9** (amended): during the verification read-back every update fed
to the progress state is clamped with `min` and therefore never exceeds
the image size; in the write phase the raw parsed value is used, so the
invariant there relies on the copy tool never reporting more than the
image size. -/
theorem C9_verify_offset_clamped (iso_bytes : Nat) (line : String)
    (b : Nat) (h : verify_progress_position iso_bytes line = some b) :
    b ≤ iso_bytes := by
  unfold verify_progress_position at h
  cases hu : progress_update line with
  | none => rw [hu] at h; exact Option.noConfusion h
  | some v =>
    rw [hu] at h
    simp only [Option.map_some'] at h
    injection h with h
    omega

/-- Witness for C9: the clamped verify update for a 500-byte image. -/
theorem C9_witness :
    verify_progress_position 500 "1000000 bytes copied" = some 500 ∧
      (500 : Nat) ≤ 500 :=
  ⟨by decide,
    C9_verify_offset_clamped 500 "1000000 bytes copied" 500 (by decide)⟩

/-- **C10** (error handling): the explicit-device write path reaches
confirmation and writing only through a device of the current catalog
enumeration whose path equals the request; when no enumerated device has
the requested path — an internal disk's node, say — the command errors
out and performs nothing. -/
theorem C10_explicit_device_gate (catalog : List UsbDevice)
    (requested input : String) (iso_bytes : Nat) (a : PromptAnswers)
    (verify dry_run : Bool) (mounts : List String) (copyExitOk : Bool) :
    (∀ dev, resolve_write_device catalog requested = some dev →
      dev ∈ catalog ∧ dev.path = requested) ∧
    (∀ effs, write_command_explicit_device catalog requested input
        iso_bytes a verify dry_run mounts copyExitOk = Except.ok effs →
      ∃ dev, dev ∈ catalog ∧ dev.path = requested) ∧
    ((∀ dev ∈ catalog, dev.path ≠ requested) →
      write_command_explicit_device catalog requested input iso_bytes a
          verify dry_run mounts copyExitOk =
        Except.error (requested ++ " is not a detected USB drive.")) := by
  have hres : ∀ dev, resolve_write_device catalog requested = some dev →
      dev ∈ catalog ∧ dev.path = requested := by
    intro dev h
    refine ⟨List.mem_of_find?_eq_some h, ?_⟩
    have := List.find?_some h
    simpa using this
  refine ⟨hres, ?_, ?_⟩
  · intro effs h
    unfold write_command_explicit_device at h
    cases hr : resolve_write_device catalog requested with
    | none => rw [hr] at h; exact Except.noConfusion h
    | some dev => exact ⟨dev, hres dev hr⟩
  · intro hall
    unfold write_command_explicit_device
    have hnone : resolve_write_device catalog requested = none := by
      unfold resolve_write_device
      rw [List.find?_eq_none]
      intro dev hdev
      simpa using hall dev hdev
    rw [hnone]

/-- Witness for C10: on the one-device catalog `[smallDev]`, resolving
`/dev/sdc` succeeds with a catalog member of that path, while `/dev/sda`
(an internal disk's node) is rejected with an error. -/
theorem C10_witness :
    (smallDev ∈ [smallDev] ∧ smallDev.path = "/dev/sdc") ∧
      write_command_explicit_device [smallDev] "/dev/sda" "ubuntu.iso"
          5000000000 ⟨true, true⟩ true false [] true =
        Except.error ("/dev/sda" ++ " is not a detected USB drive.") :=
  ⟨(C10_explicit_device_gate [smallDev] "/dev/sdc" "ubuntu.iso" 5000000000
      ⟨true, true⟩ true false [] true).1 smallDev (by decide),
   (C10_explicit_device_gate [smallDev] "/dev/sda" "ubuntu.iso" 5000000000
      ⟨true, true⟩ true false [] true).2.2 (by decide)⟩
